import Mathlib

/-!
Shallow embedding of the `rnd` Go package (`src/rnd.go`): a pre-seeded,
concurrency-safe PRNG facade.  The package wraps one global engine
(`golang.org/x/exp/rand`, an external dependency of the repository) together
with an atomic `uint64` counter `calls`.  Every public operation draws from the
engine, then runs `reseed n`, which adds its charge `n` to `calls` and, when
the post-add value exceeds `math.MaxUint32`, seeds the engine from a freshly
drawn entropy value (`new(maphash.Hash).Sum64()`).

The engine itself is out of scope for the repository ("treated as an external
collaborator" per the documentation), so its primitives are modelled from the
spec; every definition carrying a `Modelled from the spec:` doc comment is such
a model.  Everything else is a direct transcription of `src/rnd.go`.
The nondeterministic entropy source is modelled as an oracle stream carried in
the global state together with a read position.
-/

namespace Rnd

/-- The modulus of Go `uint64` arithmetic. -/
def U64 : Nat := 2 ^ 64

/-- Go constant `math.MaxUint32`, the reseed threshold used in `reseed`. -/
def maxUint32 : Nat := 2 ^ 32 - 1

/-- Signed 64-bit values flowing through the bounded generators.  Overflow
never occurs on the modelled paths, so mathematical integers are used. -/
abbrev I64 := Int

/-- Modelled from the spec: the external engine (`golang.org/x/exp/rand`,
missing from the repository sources) owns seed-derived internal state.  It is
modelled as the seed it was last given plus the number of raw 64-bit words
drawn since that seeding. -/
structure Engine where
  seed : Nat
  pos : Nat
deriving DecidableEq

/-- Modelled from the spec: the engine's raw uniform 64-bit word stream.  The
generation algorithm is explicitly out of scope, so it is modelled as an
arbitrary but fixed deterministic mixing function of seed and position,
reduced into the 64-bit range. -/
def engineWord (e : Engine) : Nat :=
  (e.seed * 6364136223846793005 + e.pos * 1442695040888963407 + 11) % U64

/-- Advancing the engine past one drawn word. -/
def engineStep (e : Engine) : Engine :=
  { e with pos := e.pos + 1 }

/-- Modelled from the spec: `Seed` replaces the engine state in place with
state derived from the given 64-bit entropy value. -/
def engineSeed (v : Nat) : Engine :=
  { seed := v % U64, pos := 0 }

/-- Modelled from the spec: produce-uint64, a full-range uniform 64-bit word. -/
def engineUint64 (e : Engine) : Nat × Engine :=
  (engineWord e, engineStep e)

/-- Modelled from the spec: produce-uint32, a full-range uniform 32-bit word. -/
def engineUint32 (e : Engine) : Nat × Engine :=
  (engineWord e % 2 ^ 32, engineStep e)

/-- Modelled from the spec: produce-int63, uniform in `[0, 2^63)`. -/
def engineInt63 (e : Engine) : Nat × Engine :=
  (engineWord e % 2 ^ 63, engineStep e)

/-- Modelled from the spec: produce-int31, uniform in `[0, 2^31)`. -/
def engineInt31 (e : Engine) : Nat × Engine :=
  (engineWord e % 2 ^ 31, engineStep e)

/-- Modelled from the spec: produce-int, a non-negative platform-width int;
on a 64-bit platform this is uniform in `[0, 2^63)`. -/
def engineIntDraw (e : Engine) : Nat × Engine :=
  (engineWord e % 2 ^ 63, engineStep e)

/-- Modelled from the spec: produce-int63-bounded returns a value in
`[0, bound)` and fails (panics) with an invalid-argument error when
`bound ≤ 0`, leaving the engine untouched in that case. -/
def engineInt63n (b : I64) (e : Engine) : Except String I64 × Engine :=
  if b ≤ 0 then (Except.error "invalid argument to Int63n", e)
  else (Except.ok (((engineWord e % 2 ^ 63 : Nat) : I64) % b), engineStep e)

/-- Modelled from the spec: produce-int31-bounded returns a value in
`[0, bound)` and fails (panics) with an invalid-argument error when
`bound ≤ 0`, leaving the engine untouched in that case. -/
def engineInt31n (b : I64) (e : Engine) : Except String I64 × Engine :=
  if b ≤ 0 then (Except.error "invalid argument to Int31n", e)
  else (Except.ok (((engineWord e % 2 ^ 31 : Nat) : I64) % b), engineStep e)

/-- Modelled from the spec: produce-int-bounded returns a value in
`[0, bound)` and fails (panics) with an invalid-argument error when
`bound ≤ 0`, leaving the engine untouched in that case. -/
def engineIntn (b : I64) (e : Engine) : Except String I64 × Engine :=
  if b ≤ 0 then (Except.error "invalid argument to Intn", e)
  else (Except.ok (((engineWord e % 2 ^ 63 : Nat) : I64) % b), engineStep e)

/-- Modelled from the spec: the float-returning draws (uniform, normal,
exponential) are out-of-scope floating-point samples; each consumes one raw
word, represented here by the word that determines the sample. -/
def engineFloatDraw (e : Engine) : Nat × Engine :=
  (engineWord e, engineStep e)

/-- Exchanging the entries of `l` at positions `i` and `j`; out-of-range
indices leave the list unchanged. -/
def swapIdx (l : List α) (i j : Nat) : List α :=
  match l[i]?, l[j]? with
  | some a, some b => (l.set i b).set j a
  | _, _ => l

/-- Modelled from the spec: the Fisher-Yates loop of the engine's shuffle,
iterating the running index `i` from `n - 1` down to `1` and swapping position
`i` with a uniformly drawn position `j` in `[0, i]`. -/
def shuffleLoop (l : List α) (e : Engine) : Nat → List α × Engine
  | 0 => (l, e)
  | i + 1 =>
    shuffleLoop (swapIdx l (i + 1) ((engineUint64 e).1 % (i + 2)))
      (engineUint64 e).2 i

/-- Modelled from the spec: shuffle-in-place randomizes the order of the
sequence using a Fisher-Yates-style swap driven by the engine. -/
def engineShuffle (l : List α) (e : Engine) : List α × Engine :=
  shuffleLoop l e (l.length - 1)

/-- Modelled from the spec: produce-permutation returns a random permutation
of the integers `[0, n)`, realised as the engine's Fisher-Yates shuffle of the
identity sequence. -/
def enginePerm (n : Nat) (e : Engine) : List Nat × Engine :=
  engineShuffle (List.range n) e

/-- Modelled from the spec: fill-random-bytes draws `k` pseudo-random bytes
from the engine; reading randomness never fails. -/
def engineReadBytes (k : Nat) (e : Engine) : List Nat × Engine :=
  match k with
  | 0 => ([], e)
  | k + 1 =>
    ((engineUint64 e).1 % 256 :: (engineReadBytes k (engineUint64 e).2).1,
      (engineReadBytes k (engineUint64 e).2).2)

/-- The hidden global state of the package: the engine behind the package
variable `global`, the `uint64` counter `calls`, and the entropy oracle
(modelling the nondeterministic `new(maphash.Hash).Sum64()` draws) together
with its read position. -/
structure GlobalState where
  engine : Engine
  calls : Nat
  entropy : Nat → Nat
  entropyPos : Nat

/-- Drawing one fresh entropy value advances the oracle position. -/
def freshEntropy (s : GlobalState) : Nat :=
  s.entropy s.entropyPos

/-- Transcription of `reseed` (src/rnd.go:39-45): increment `calls` by `n`
(the `uint64` add wraps modulo `2^64`; the Go conversion `uint64(n)` is the
identity on the non-negative charges that arise) and, when the value returned
by that same add exceeds `math.MaxUint32`, seed the global engine from a
freshly drawn entropy value. -/
def reseed (n : Nat) (s : GlobalState) : GlobalState :=
  if maxUint32 < (s.calls + n) % U64 then
    { engine := engineSeed (freshEntropy s), calls := (s.calls + n) % U64,
      entropy := s.entropy, entropyPos := s.entropyPos + 1 }
  else
    { s with calls := (s.calls + n) % U64 }

/-- Transcription of `init` (src/rnd.go:34-36): the state at process start,
with the engine seeded from the first entropy draw and `calls` zero. -/
def initState (entropy : Nat → Nat) : GlobalState :=
  { engine := engineSeed (entropy 0), calls := 0,
    entropy := entropy, entropyPos := 1 }

/-- Transcription of `Int63` (src/rnd.go:48-51). -/
def Int63 (s : GlobalState) : Nat × GlobalState :=
  ((engineInt63 s.engine).1,
    reseed 1 { s with engine := (engineInt63 s.engine).2 })

/-- Transcription of `Uint32` (src/rnd.go:54-57). -/
def Uint32 (s : GlobalState) : Nat × GlobalState :=
  ((engineUint32 s.engine).1,
    reseed 1 { s with engine := (engineUint32 s.engine).2 })

/-- Transcription of `Uint64` (src/rnd.go:60-63). -/
def Uint64 (s : GlobalState) : Nat × GlobalState :=
  ((engineUint64 s.engine).1,
    reseed 1 { s with engine := (engineUint64 s.engine).2 })

/-- Transcription of `Int31` (src/rnd.go:66-69). -/
def Int31 (s : GlobalState) : Nat × GlobalState :=
  ((engineInt31 s.engine).1,
    reseed 1 { s with engine := (engineInt31 s.engine).2 })

/-- Transcription of `Int` (src/rnd.go:72-75). -/
def Int (s : GlobalState) : Nat × GlobalState :=
  ((engineIntDraw s.engine).1,
    reseed 1 { s with engine := (engineIntDraw s.engine).2 })

/-- Transcription of `Int63n` (src/rnd.go:79-82): the deferred `reseed 1`
runs on every exit path, also when the engine call panics on `n ≤ 0`. -/
def Int63n (b : I64) (s : GlobalState) : Except String I64 × GlobalState :=
  ((engineInt63n b s.engine).1,
    reseed 1 { s with engine := (engineInt63n b s.engine).2 })

/-- Transcription of `Int31n` (src/rnd.go:86-89): the deferred `reseed 1`
runs on every exit path, also when the engine call panics on `n ≤ 0`. -/
def Int31n (b : I64) (s : GlobalState) : Except String I64 × GlobalState :=
  ((engineInt31n b s.engine).1,
    reseed 1 { s with engine := (engineInt31n b s.engine).2 })

/-- Transcription of `Intn` (src/rnd.go:93-96): the deferred `reseed 1`
runs on every exit path, also when the engine call panics on `n ≤ 0`. -/
def Intn (b : I64) (s : GlobalState) : Except String I64 × GlobalState :=
  ((engineIntn b s.engine).1,
    reseed 1 { s with engine := (engineIntn b s.engine).2 })

/-- Transcription of `Float64` (src/rnd.go:99-102). -/
def Float64 (s : GlobalState) : Nat × GlobalState :=
  ((engineFloatDraw s.engine).1,
    reseed 1 { s with engine := (engineFloatDraw s.engine).2 })

/-- Transcription of `Float32` (src/rnd.go:105-108). -/
def Float32 (s : GlobalState) : Nat × GlobalState :=
  ((engineFloatDraw s.engine).1,
    reseed 1 { s with engine := (engineFloatDraw s.engine).2 })

/-- Transcription of `Perm` (src/rnd.go:111-114): charge is the size `n`. -/
def Perm (n : Nat) (s : GlobalState) : List Nat × GlobalState :=
  ((enginePerm n s.engine).1,
    reseed n { s with engine := (enginePerm n s.engine).2 })

/-- Transcription of `Shuffle` (src/rnd.go:117-122), generic over the element
type: shuffle through index swaps, then charge `len(s)` units. -/
def Shuffle (l : List α) (s : GlobalState) : List α × GlobalState :=
  ((engineShuffle l s.engine).1,
    reseed l.length { s with engine := (engineShuffle l s.engine).2 })

/-- Transcription of `Read` (src/rnd.go:126-129): fill the buffer, return
`(len(p), nil)`, and charge `len(p) / 8` units. -/
def Read (p : List Nat) (s : GlobalState) :
    (List Nat × Nat × Option String) × GlobalState :=
  (((engineReadBytes p.length s.engine).1, p.length, none),
    reseed (p.length / 8) { s with engine := (engineReadBytes p.length s.engine).2 })

/-- Transcription of `NormFloat64` (src/rnd.go:139-142). -/
def NormFloat64 (s : GlobalState) : Nat × GlobalState :=
  ((engineFloatDraw s.engine).1,
    reseed 1 { s with engine := (engineFloatDraw s.engine).2 })

/-- Transcription of `ExpFloat64` (src/rnd.go:152-155). -/
def ExpFloat64 (s : GlobalState) : Nat × GlobalState :=
  ((engineFloatDraw s.engine).1,
    reseed 1 { s with engine := (engineFloatDraw s.engine).2 })

/-- The observable result of one public operation, used to compare runs. -/
inductive Obs where
  | n (v : Nat)
  | i (v : I64)
  | fail (msg : String)
  | l (v : List Nat)
  | rd (bytes : List Nat) (count : Nat) (err : Option String)
deriving DecidableEq

/-- Folding a bounded generator's fallible result into an observation. -/
def obsOfExcept : Except String I64 → Obs
  | Except.ok v => Obs.i v
  | Except.error m => Obs.fail m

/-- One public generation operation of the package, with its argument.  The
generic `Shuffle` is represented at element type `Nat`. -/
inductive Op where
  | int63
  | uint32
  | uint64
  | int31
  | int
  | int63n (b : I64)
  | int31n (b : I64)
  | intn (b : I64)
  | float64
  | float32
  | perm (n : Nat)
  | shuffle (l : List Nat)
  | read (p : List Nat)
  | normFloat64
  | expFloat64
deriving DecidableEq

/-- The charge (units of consumed randomness) each operation accounts to the
counter, as hard-coded at each `reseed` call site of src/rnd.go. -/
def charge : Op → Nat
  | Op.perm n => n
  | Op.shuffle l => l.length
  | Op.read p => p.length / 8
  | _ => 1

/-- Running one public operation on the global state. -/
def runOp : Op → GlobalState → Obs × GlobalState
  | Op.int63, s => (Obs.n (Int63 s).1, (Int63 s).2)
  | Op.uint32, s => (Obs.n (Uint32 s).1, (Uint32 s).2)
  | Op.uint64, s => (Obs.n (Uint64 s).1, (Uint64 s).2)
  | Op.int31, s => (Obs.n (Int31 s).1, (Int31 s).2)
  | Op.int, s => (Obs.n (Int s).1, (Int s).2)
  | Op.int63n b, s => (obsOfExcept (Int63n b s).1, (Int63n b s).2)
  | Op.int31n b, s => (obsOfExcept (Int31n b s).1, (Int31n b s).2)
  | Op.intn b, s => (obsOfExcept (Intn b s).1, (Intn b s).2)
  | Op.float64, s => (Obs.n (Float64 s).1, (Float64 s).2)
  | Op.float32, s => (Obs.n (Float32 s).1, (Float32 s).2)
  | Op.perm n, s => (Obs.l (Perm n s).1, (Perm n s).2)
  | Op.shuffle l, s => (Obs.l (Shuffle l s).1, (Shuffle l s).2)
  | Op.read p, s =>
    (Obs.rd (Read p s).1.1 (Read p s).1.2.1 (Read p s).1.2.2, (Read p s).2)
  | Op.normFloat64, s => (Obs.n (NormFloat64 s).1, (NormFloat64 s).2)
  | Op.expFloat64, s => (Obs.n (ExpFloat64 s).1, (ExpFloat64 s).2)

/-- The observation of an operation as a function of the engine alone. -/
def opObs : Op → Engine → Obs
  | Op.int63, e => Obs.n (engineInt63 e).1
  | Op.uint32, e => Obs.n (engineUint32 e).1
  | Op.uint64, e => Obs.n (engineUint64 e).1
  | Op.int31, e => Obs.n (engineInt31 e).1
  | Op.int, e => Obs.n (engineIntDraw e).1
  | Op.int63n b, e => obsOfExcept (engineInt63n b e).1
  | Op.int31n b, e => obsOfExcept (engineInt31n b e).1
  | Op.intn b, e => obsOfExcept (engineIntn b e).1
  | Op.float64, e => Obs.n (engineFloatDraw e).1
  | Op.float32, e => Obs.n (engineFloatDraw e).1
  | Op.perm n, e => Obs.l (enginePerm n e).1
  | Op.shuffle l, e => Obs.l (engineShuffle l e).1
  | Op.read p, e => Obs.rd (engineReadBytes p.length e).1 p.length none
  | Op.normFloat64, e => Obs.n (engineFloatDraw e).1
  | Op.expFloat64, e => Obs.n (engineFloatDraw e).1

/-- The engine state after an operation's draw (before any reseed), as a
function of the engine alone. -/
def opEng : Op → Engine → Engine
  | Op.int63, e => (engineInt63 e).2
  | Op.uint32, e => (engineUint32 e).2
  | Op.uint64, e => (engineUint64 e).2
  | Op.int31, e => (engineInt31 e).2
  | Op.int, e => (engineIntDraw e).2
  | Op.int63n b, e => (engineInt63n b e).2
  | Op.int31n b, e => (engineInt31n b e).2
  | Op.intn b, e => (engineIntn b e).2
  | Op.float64, e => (engineFloatDraw e).2
  | Op.float32, e => (engineFloatDraw e).2
  | Op.perm n, e => (enginePerm n e).2
  | Op.shuffle l, e => (engineShuffle l e).2
  | Op.read p, e => (engineReadBytes p.length e).2
  | Op.normFloat64, e => (engineFloatDraw e).2
  | Op.expFloat64, e => (engineFloatDraw e).2

/-- Normal form of every public operation: draw from the engine, then run the
reseed accounting with the operation's charge. -/
theorem runOp_eq (op : Op) (s : GlobalState) :
    runOp op s =
      (opObs op s.engine, reseed (charge op) { s with engine := opEng op s.engine }) := by
  cases op <;> rfl

theorem reseed_calls (n : Nat) (s : GlobalState) :
    (reseed n s).calls = (s.calls + n) % U64 := by
  unfold reseed
  split <;> rfl

theorem reseed_entropy (n : Nat) (s : GlobalState) :
    (reseed n s).entropy = s.entropy := by
  unfold reseed
  split <;> rfl

theorem reseed_of_lt (n : Nat) (s : GlobalState)
    (h : maxUint32 < (s.calls + n) % U64) :
    (reseed n s).engine = engineSeed (freshEntropy s) ∧
      (reseed n s).entropyPos = s.entropyPos + 1 := by
  unfold reseed
  rw [if_pos h]
  exact ⟨rfl, rfl⟩

theorem reseed_of_le (n : Nat) (s : GlobalState)
    (h : (s.calls + n) % U64 ≤ maxUint32) :
    (reseed n s).engine = s.engine ∧ (reseed n s).entropyPos = s.entropyPos := by
  unfold reseed
  rw [if_neg (by omega)]
  exact ⟨rfl, rfl⟩

theorem runOp_calls (op : Op) (s : GlobalState) :
    (runOp op s).2.calls = (s.calls + charge op) % U64 := by
  rw [runOp_eq]
  exact reseed_calls (charge op) _

theorem runOp_of_lt (op : Op) (s : GlobalState)
    (h : maxUint32 < (s.calls + charge op) % U64) :
    (runOp op s).2.engine = engineSeed (s.entropy s.entropyPos) ∧
      (runOp op s).2.entropyPos = s.entropyPos + 1 := by
  rw [runOp_eq]
  exact reseed_of_lt (charge op) _ h

theorem runOp_of_le (op : Op) (s : GlobalState)
    (h : (s.calls + charge op) % U64 ≤ maxUint32) :
    (runOp op s).2.engine = opEng op s.engine ∧
      (runOp op s).2.entropyPos = s.entropyPos := by
  rw [runOp_eq]
  exact reseed_of_le (charge op) _ h

theorem cons_coe_set (l : List α) (i : Nat) (b : α) (h : i < l.length) :
    l[i] ::ₘ ((l.set i b : List α) : Multiset α) = b ::ₘ (l : Multiset α) := by
  induction l generalizing i with
  | nil => simp at h
  | cons x xs ih =>
    cases i with
    | zero =>
      simp only [List.set, List.getElem_cons_zero]
      rw [← Multiset.cons_coe, ← Multiset.cons_coe, Multiset.cons_swap]
    | succ n =>
      have hn : n < xs.length := by simpa using h
      simp only [List.set, List.getElem_cons_succ]
      rw [← Multiset.cons_coe, ← Multiset.cons_coe, Multiset.cons_swap,
        ih n hn, Multiset.cons_swap]

theorem coe_swapIdx (l : List α) (i j : Nat) :
    ((swapIdx l i j : List α) : Multiset α) = (l : Multiset α) := by
  rcases hi : l[i]? with _ | a <;> rcases hj : l[j]? with _ | b <;>
    simp only [swapIdx, hi, hj]
  obtain ⟨hi1, ha⟩ := List.getElem?_eq_some.mp hi
  obtain ⟨hj1, hb⟩ := List.getElem?_eq_some.mp hj
  have hlen : j < (l.set i b).length := by simpa using hj1
  have hjb : (l.set i b)[j] = b := by
    rcases eq_or_ne i j with hij | hij
    · subst hij
      exact hb ▸ List.getElem_set_self hlen
    · rw [List.getElem_set_ne hij]
      exact hb
  have h1 := cons_coe_set (l.set i b) j a hlen
  rw [hjb] at h1
  have h2 := cons_coe_set l i b hi1
  rw [ha] at h2
  exact (Multiset.cons_inj_right b).mp (h1.trans h2)

theorem coe_shuffleLoop (k : Nat) (l : List α) (e : Engine) :
    (((shuffleLoop l e k).1 : List α) : Multiset α) = (l : Multiset α) := by
  induction k generalizing l e with
  | zero => rfl
  | succ i ih =>
    rw [shuffleLoop, ih, coe_swapIdx]

theorem coe_engineShuffle (l : List α) (e : Engine) :
    (((engineShuffle l e).1 : List α) : Multiset α) = (l : Multiset α) :=
  coe_shuffleLoop (l.length - 1) l e

theorem length_engineShuffle (l : List α) (e : Engine) :
    (engineShuffle l e).1.length = l.length := by
  have h := congrArg Multiset.card (coe_engineShuffle l e)
  simpa using h

theorem engineShuffle_short (l : List α) (e : Engine) (h : l.length ≤ 1) :
    (engineShuffle l e).1 = l := by
  unfold engineShuffle
  have h0 : l.length - 1 = 0 := by omega
  rw [h0]
  rfl

theorem length_engineReadBytes (k : Nat) (e : Engine) :
    (engineReadBytes k e).1.length = k := by
  induction k generalizing e with
  | zero => rfl
  | succ k ih => simp [engineReadBytes, ih]

/-- A concrete state with a low counter, used in witnesses. -/
def sLow : GlobalState :=
  { engine := { seed := 7, pos := 0 }, calls := 3,
    entropy := fun _ => 5, entropyPos := 0 }

/-- A concrete state like `sLow` but with a different entropy oracle. -/
def sLow2 : GlobalState :=
  { engine := { seed := 7, pos := 0 }, calls := 3,
    entropy := fun _ => 6, entropyPos := 0 }

/-- A concrete state whose counter is just above the reseed threshold. -/
def sHigh : GlobalState :=
  { engine := { seed := 7, pos := 0 }, calls := 2 ^ 32 + 4,
    entropy := fun _ => 5, entropyPos := 0 }

/-- A concrete state like `sHigh` but with a different entropy oracle. -/
def sHigh2 : GlobalState :=
  { engine := { seed := 7, pos := 0 }, calls := 2 ^ 32 + 4,
    entropy := fun _ => 6, entropyPos := 0 }

/-- A concrete state whose counter sits at the top of the uint64 range. -/
def sTop : GlobalState :=
  { engine := { seed := 7, pos := 0 }, calls := 2 ^ 64 - 1,
    entropy := fun _ => 5, entropyPos := 0 }

/-- C1: for every public generation operation, after the operation completes
its charge n (n ≥ 0 by construction of `charge`) is added to the shared
counter `calls` (`uint64` add, wrapping modulo `2^64`), and the engine is
reseeded with a freshly drawn entropy value exactly when the counter value
returned by that same add exceeds `2^32 - 1`: above the threshold the final
engine is seeded from the next entropy draw and the oracle advances; at or
below it no entropy is drawn. -/
theorem claim_C1 (op : Op) (s : GlobalState) :
    (runOp op s).2.calls = (s.calls + charge op) % U64 ∧
    (maxUint32 < (s.calls + charge op) % U64 →
      (runOp op s).2.engine = engineSeed (s.entropy s.entropyPos) ∧
      (runOp op s).2.entropyPos = s.entropyPos + 1) ∧
    ((s.calls + charge op) % U64 ≤ maxUint32 →
      (runOp op s).2.entropyPos = s.entropyPos) :=
  ⟨runOp_calls op s, fun h => runOp_of_lt op s h, fun h => (runOp_of_le op s h).2⟩

theorem claim_C1_witness :
    (runOp Op.int63 sHigh).2.calls = (sHigh.calls + charge Op.int63) % U64 ∧
      (runOp Op.int63 sHigh).2.entropyPos = sHigh.entropyPos + 1 ∧
      (runOp Op.int63 sLow).2.entropyPos = sLow.entropyPos :=
  ⟨(claim_C1 Op.int63 sHigh).1,
    ((claim_C1 Op.int63 sHigh).2.1 (by decide)).2,
    (claim_C1 Op.int63 sLow).2.2 (by decide)⟩

/-- C2 counterexample: the counter is a wrapping `uint64`, so it is not
monotonically increasing in full generality — at the top of the range the
atomic add of an `Int63` call writes zero, a strictly smaller value, into
`calls`. -/
theorem claim_C2_counterexample :
    0 < sTop.calls ∧ (runOp Op.int63 sTop).2.calls = 0 ∧
      ¬ sTop.calls ≤ (runOp Op.int63 sTop).2.calls := by decide

/-- C2 (amended): as long as the 64-bit add does not wrap
(`s.calls + charge op < 2^64`), no operation decreases the counter or writes a
smaller value — the post-state counter is exactly the old value plus the
charge, whether or not a reseed fires — and once the counter has exceeded
`2^32 - 1`, every call whose post-add value exceeds that threshold triggers
another reseed (fresh entropy is drawn). -/
theorem claim_C2 (op : Op) (s : GlobalState) (h : s.calls + charge op < U64) :
    (runOp op s).2.calls = s.calls + charge op ∧
    s.calls ≤ (runOp op s).2.calls ∧
    (maxUint32 < s.calls + charge op →
      (runOp op s).2.entropyPos = s.entropyPos + 1) := by
  have hc := runOp_calls op s
  rw [Nat.mod_eq_of_lt h] at hc
  refine ⟨hc, by omega, fun hgt => ?_⟩
  exact (runOp_of_lt op s (by rw [Nat.mod_eq_of_lt h]; exact hgt)).2

theorem claim_C2_witness :
    (runOp Op.int63 sHigh).2.calls = sHigh.calls + 1 ∧
      sHigh.calls ≤ (runOp Op.int63 sHigh).2.calls ∧
      (runOp Op.int63 sHigh).2.entropyPos = sHigh.entropyPos + 1 := by
  have h := claim_C2 Op.int63 sHigh (by decide)
  exact ⟨h.1, h.2.1, h.2.2 (by decide)⟩

/-- C3: each bounded-integer generator (`Int63n`, `Int31n`, `Intn`) fails with
an invalid-argument panic when the bound is non-positive, and for every
positive bound returns a value in the half-open interval `[0, b)`. -/
theorem claim_C3 (b : I64) (s : GlobalState) :
    (b ≤ 0 →
      (Int63n b s).1 = Except.error "invalid argument to Int63n" ∧
      (Int31n b s).1 = Except.error "invalid argument to Int31n" ∧
      (Intn b s).1 = Except.error "invalid argument to Intn") ∧
    (0 < b →
      (∃ v, (Int63n b s).1 = Except.ok v ∧ 0 ≤ v ∧ v < b) ∧
      (∃ v, (Int31n b s).1 = Except.ok v ∧ 0 ≤ v ∧ v < b) ∧
      (∃ v, (Intn b s).1 = Except.ok v ∧ 0 ≤ v ∧ v < b)) := by
  constructor
  · intro hb
    refine ⟨?_, ?_, ?_⟩ <;>
      simp [Int63n, Int31n, Intn, engineInt63n, engineInt31n, engineIntn, hb]
  · intro hb
    have hnb : ¬ b ≤ 0 := not_le.mpr hb
    have hb0 : b ≠ 0 := ne_of_gt hb
    refine ⟨⟨((engineWord s.engine % 2 ^ 63 : Nat) : I64) % b, ?_,
        Int.emod_nonneg _ hb0, Int.emod_lt_of_pos _ hb⟩,
      ⟨((engineWord s.engine % 2 ^ 31 : Nat) : I64) % b, ?_,
        Int.emod_nonneg _ hb0, Int.emod_lt_of_pos _ hb⟩,
      ⟨((engineWord s.engine % 2 ^ 63 : Nat) : I64) % b, ?_,
        Int.emod_nonneg _ hb0, Int.emod_lt_of_pos _ hb⟩⟩ <;>
      simp [Int63n, Int31n, Intn, engineInt63n, engineInt31n, engineIntn, hnb]

theorem claim_C3_witness :
    (Int63n (-3) sLow).1 = Except.error "invalid argument to Int63n" ∧
      ∃ v, (Int63n 5 sLow).1 = Except.ok v ∧ 0 ≤ v ∧ v < 5 :=
  ⟨((claim_C3 (-3) sLow).1 (by decide)).1, ((claim_C3 5 sLow).2 (by decide)).1⟩

/-- C4: for every byte buffer, including the empty one, `Read` returns
exactly the buffer length and no error, and produces exactly that many
bytes. -/
theorem claim_C4 (p : List Nat) (s : GlobalState) :
    (Read p s).1.2.1 = p.length ∧ (Read p s).1.2.2 = none ∧
      (Read p s).1.1.length = p.length :=
  ⟨rfl, rfl, length_engineReadBytes p.length s.engine⟩

/-- C5: the counter update runs on every exit path of every public operation:
each operation's post-state counter carries its charge, a bounded generator
called with a non-positive bound still adds its charge of one unit before the
panic propagates, and the in-place shuffle adds its charge of `len(s)`
units. -/
theorem claim_C5 (op : Op) (s : GlobalState) (b : I64) (hb : b ≤ 0) :
    (runOp op s).2.calls = (s.calls + charge op) % U64 ∧
    ((Int63n b s).1 = Except.error "invalid argument to Int63n" ∧
      (Int63n b s).2.calls = (s.calls + 1) % U64) ∧
    ((Int31n b s).1 = Except.error "invalid argument to Int31n" ∧
      (Int31n b s).2.calls = (s.calls + 1) % U64) ∧
    ((Intn b s).1 = Except.error "invalid argument to Intn" ∧
      (Intn b s).2.calls = (s.calls + 1) % U64) ∧
    (∀ (l : List Nat), (Shuffle l s).2.calls = (s.calls + l.length) % U64) := by
  refine ⟨runOp_calls op s, ⟨?_, reseed_calls 1 _⟩, ⟨?_, reseed_calls 1 _⟩,
    ⟨?_, reseed_calls 1 _⟩, fun l => reseed_calls l.length _⟩ <;>
    simp [Int63n, Int31n, Intn, engineInt63n, engineInt31n, engineIntn, hb]

theorem claim_C5_witness :
    (runOp (Op.shuffle [1, 2, 3]) sLow).2.calls = (sLow.calls + 3) % U64 ∧
      (Int63n 0 sLow).1 = Except.error "invalid argument to Int63n" ∧
      (Int63n 0 sLow).2.calls = (sLow.calls + 1) % U64 := by
  have h := claim_C5 (Op.shuffle [1, 2, 3]) sLow 0 (by decide)
  exact ⟨h.1, h.2.1.1, h.2.1.2⟩

/-- C6: `Perm n` returns a list of exactly `n` elements that is a permutation
of `{0, …, n-1}`, the empty list for `n = 0`, and the operation charges
exactly `n` units to the reseed counter. -/
theorem claim_C6 (n : Nat) (s : GlobalState) :
    (Perm n s).1.length = n ∧ (Perm n s).1.Perm (List.range n) ∧
      (n = 0 → (Perm n s).1 = []) ∧
      (Perm n s).2.calls = (s.calls + n) % U64 := by
  have hm : (((Perm n s).1 : List Nat) : Multiset Nat) =
      ((List.range n : List Nat) : Multiset Nat) :=
    coe_engineShuffle (List.range n) s.engine
  have hlen : (Perm n s).1.length = n := by
    have h := length_engineShuffle (List.range n) s.engine
    simpa using h
  refine ⟨hlen, Multiset.coe_eq_coe.mp hm, fun h0 => ?_, reseed_calls n _⟩
  rw [← List.length_eq_zero, hlen, h0]

theorem claim_C6_witness :
    (Perm 0 sLow).1 = [] :=
  (claim_C6 0 sLow).2.2.1 rfl

/-- C7: for every element type and every list, `Shuffle` leaves the list
containing exactly the same multiset of elements, and on a list of length at
most one (including the empty list) the list is returned unchanged. -/
theorem claim_C7 {α : Type u} (l : List α) (s : GlobalState) :
    (((Shuffle l s).1 : List α) : Multiset α) = (l : Multiset α) ∧
      (l.length ≤ 1 → (Shuffle l s).1 = l) :=
  ⟨coe_engineShuffle l s.engine, fun h => engineShuffle_short l s.engine h⟩

theorem claim_C7_witness :
    (((Shuffle [9] sLow).1 : List Nat) : Multiset Nat) = ([9] : List Nat) ∧
      (Shuffle [9] sLow).1 = [9] :=
  ⟨(claim_C7 [9] sLow).1, (claim_C7 [9] sLow).2 (by decide)⟩

/-- C8: `Read p` charges exactly `len(p) / 8` (integer division) units to the
reseed counter, so a buffer of fewer than eight bytes charges zero units and
leaves the counter value unchanged. -/
theorem claim_C8 (p : List Nat) (s : GlobalState) :
    (Read p s).2.calls = (s.calls + p.length / 8) % U64 ∧
      (p.length < 8 → (Read p s).2.calls = s.calls % U64) := by
  refine ⟨reseed_calls _ _, fun h => ?_⟩
  have h0 : p.length / 8 = 0 := Nat.div_eq_of_lt h
  have h1 : (Read p s).2.calls = (s.calls + p.length / 8) % U64 :=
    reseed_calls _ _
  rw [h1, h0, Nat.add_zero]

theorem claim_C8_witness :
    (Read [0, 0, 0, 0, 0, 0, 0] sLow).2.calls = sLow.calls % U64 :=
  (claim_C8 [0, 0, 0, 0, 0, 0, 0] sLow).2 (by decide)

/-- C9 counterexample: with the counter at the top of the uint64 range — a
value strictly above the threshold — the post-add value of an `Int63` call
wraps to zero, so no reseed fires even though `calls` exceeded `2^32 - 1`
before the call. -/
theorem claim_C9_counterexample :
    maxUint32 < sTop.calls ∧
      ¬ (runOp Op.int63 sTop).2.entropyPos = sTop.entropyPos + 1 := by decide

/-- C9 (amended): once the counter exceeds `2^32 - 1`, every subsequent
public operation whose 64-bit add does not wrap triggers a reseed — including
an operation whose charge is zero units, such as `Read` with a buffer shorter
than eight bytes — because the reseed condition tests the post-add counter
value, not the size of the increment. -/
theorem claim_C9 (op : Op) (s : GlobalState)
    (h1 : maxUint32 < s.calls) (h2 : s.calls + charge op < U64) :
    (runOp op s).2.entropyPos = s.entropyPos + 1 ∧
      (runOp op s).2.engine = engineSeed (s.entropy s.entropyPos) := by
  have hlt : maxUint32 < (s.calls + charge op) % U64 := by
    rw [Nat.mod_eq_of_lt h2]
    omega
  exact ⟨(runOp_of_lt op s hlt).2, (runOp_of_lt op s hlt).1⟩

theorem claim_C9_witness :
    (runOp (Op.read [0, 1, 2]) sHigh).2.entropyPos = sHigh.entropyPos + 1 :=
  (claim_C9 (Op.read [0, 1, 2]) sHigh (by decide) (by decide)).1

/-- C10 counterexample: a public operation is not a deterministic function of
the engine state and the counter alone — two states agreeing on both, but
attached to different entropy oracles, reach different final engine states
when the operation triggers a reseed. -/
theorem claim_C10_counterexample :
    sHigh.engine = sHigh2.engine ∧ sHigh.calls = sHigh2.calls ∧
      ¬ (runOp Op.int63 sHigh).2.engine = (runOp Op.int63 sHigh2).2.engine := by
  decide

/-- C10 (amended): two runs of the same public operation with the same
arguments from states agreeing on engine state and counter produce identical
return values and identical final counters, and identical final engine states
whenever the operation does not trigger a reseed; on a reseed the final engine
state additionally depends on the fresh (nondeterministic) entropy draw. -/
theorem claim_C10 (op : Op) (s1 s2 : GlobalState)
    (he : s1.engine = s2.engine) (hc : s1.calls = s2.calls) :
    (runOp op s1).1 = (runOp op s2).1 ∧
    (runOp op s1).2.calls = (runOp op s2).2.calls ∧
    ((s1.calls + charge op) % U64 ≤ maxUint32 →
      (runOp op s1).2.engine = (runOp op s2).2.engine) := by
  refine ⟨?_, ?_, fun h => ?_⟩
  · rw [runOp_eq, runOp_eq]
    show opObs op s1.engine = opObs op s2.engine
    rw [he]
  · rw [runOp_calls, runOp_calls, hc]
  · have h2 : (s2.calls + charge op) % U64 ≤ maxUint32 := by
      rw [← hc]
      exact h
    rw [(runOp_of_le op s1 h).1, (runOp_of_le op s2 h2).1, he]

theorem claim_C10_witness :
    (runOp Op.int63 sLow).1 = (runOp Op.int63 sLow2).1 ∧
      (runOp Op.int63 sLow).2.engine = (runOp Op.int63 sLow2).2.engine := by
  have h := claim_C10 Op.int63 sLow sLow2 (by decide) (by decide)
  exact ⟨h.1, h.2.2 (by decide)⟩

end Rnd
